import Mathlib

/-!
Shallow embedding of the `synthetism/rate-limiter` token-bucket core.

JavaScript numbers are modelled as exact rationals (`ℚ`); timestamps and
durations are rationals as well, and `Date.now()` is passed explicitly as a
`now : ℚ` argument.  `Math.floor` / `Math.ceil` become `Int.floor` /
`Int.ceil`.  The key-value storage backend is modelled as a function
`String → Option BucketData`, and every engine operation additionally
returns the list of `storage.set` calls it performed, so that "no write
occurred" is distinguishable from "a write stored the same value".
-/

/-- Embeds the `BucketData` interface of `src/bucket.ts`. -/
structure BucketData where
  tokens : ℚ
  capacity : ℚ
  burstCapacity : ℚ
  lastRefill : ℚ
  window : ℚ
  refillRate : ℚ
  deriving Repr, DecidableEq

/-- Embeds the bucket-level `RateLimitResult` of `src/types.ts`:
`retryAfter` is optional (absent on the allowed branch of `consumeToken`). -/
structure RateLimitResult where
  allowed : Bool
  remaining : ℤ
  resetTime : ℚ
  retryAfter : Option ℚ
  deriving Repr, DecidableEq

/-- Embeds `createBucket` of `src/bucket.ts`; `Date.now()` is the `now`
argument. -/
def createBucket (capacity window burst now : ℚ) : BucketData :=
  { tokens := capacity + burst
    capacity := capacity
    burstCapacity := capacity + burst
    lastRefill := now
    window := window
    refillRate := capacity / window }

/-- Embeds `Math.min` on two (non-NaN) numbers. -/
def jsMin (a b : ℚ) : ℚ :=
  if a ≤ b then a else b

theorem jsMin_eq_min (a b : ℚ) : jsMin a b = min a b := by
  unfold jsMin
  rw [min_def]

/-- Embeds `refillBucket` of `src/bucket.ts`. -/
def refillBucket (bucket : BucketData) (now : ℚ) : BucketData :=
  let timePassed := now - bucket.lastRefill
  if bucket.window ≤ timePassed then
    { bucket with tokens := bucket.burstCapacity, lastRefill := now }
  else
    let tokensToAdd := timePassed * bucket.refillRate
    { bucket with
        tokens := jsMin bucket.burstCapacity (bucket.tokens + tokensToAdd)
        lastRefill := now }

/-- Embeds `consumeToken` of `src/bucket.ts`. -/
def consumeToken (bucket : BucketData) (now : ℚ) :
    BucketData × RateLimitResult :=
  let refilled := refillBucket bucket now
  if 1 ≤ refilled.tokens then
    let updatedBucket := { refilled with tokens := refilled.tokens - 1 }
    (updatedBucket,
      { allowed := true
        remaining := ⌊updatedBucket.tokens⌋
        resetTime := refilled.lastRefill + refilled.window
        retryAfter := none })
  else
    let timeToNextToken : ℤ := ⌈(1 - refilled.tokens) / refilled.refillRate⌉
    (refilled,
      { allowed := false
        remaining := 0
        resetTime := refilled.lastRefill + refilled.window
        retryAfter := some (timeToNextToken : ℚ) })

/-- Embeds the `BucketInfo` interface of `src/bucket.ts`. -/
structure BucketInfo where
  tokens : ℤ
  capacity : ℚ
  lastRefill : ℚ
  nextRefill : ℚ
  deriving Repr, DecidableEq

/-- Embeds `getBucketInfo` of `src/bucket.ts`. -/
def getBucketInfo (bucket : BucketData) (now : ℚ) : BucketInfo :=
  let refilled := refillBucket bucket now
  { tokens := ⌊refilled.tokens⌋
    capacity := refilled.capacity
    lastRefill := refilled.lastRefill
    nextRefill := refilled.lastRefill + refilled.window }

/-- `n` successive `consumeToken` calls at a fixed instant `now`, each
threading the returned bucket into the next call. -/
def iterateConsume (bucket : BucketData) (now : ℚ) : ℕ → BucketData
  | 0 => bucket
  | n + 1 => (consumeToken (iterateConsume bucket now n) now).1

theorem refillBucket_eq_of_window_le (b : BucketData) (now : ℚ)
    (h : b.window ≤ now - b.lastRefill) :
    refillBucket b now = { b with tokens := b.burstCapacity, lastRefill := now } := by
  simp only [refillBucket]
  rw [if_pos h]

theorem refillBucket_eq_of_lt_window (b : BucketData) (now : ℚ)
    (h : now - b.lastRefill < b.window) :
    refillBucket b now =
      { b with
          tokens := jsMin b.burstCapacity
            (b.tokens + (now - b.lastRefill) * b.refillRate)
          lastRefill := now } := by
  simp only [refillBucket]
  rw [if_neg (not_le.mpr h)]

theorem refillBucket_no_elapsed (b : BucketData) (now : ℚ)
    (hnow : now = b.lastRefill) (h : 0 < b.window) :
    refillBucket b now =
      { b with tokens := jsMin b.burstCapacity b.tokens, lastRefill := now } := by
  rw [refillBucket_eq_of_lt_window b now (by rw [hnow, sub_self]; exact h)]
  rw [hnow, sub_self, zero_mul, add_zero]

theorem consumeToken_eq_of_one_le (b : BucketData) (now : ℚ)
    (h : 1 ≤ (refillBucket b now).tokens) :
    consumeToken b now =
      ({ refillBucket b now with tokens := (refillBucket b now).tokens - 1 },
       { allowed := true
         remaining := ⌊(refillBucket b now).tokens - 1⌋
         resetTime := (refillBucket b now).lastRefill + (refillBucket b now).window
         retryAfter := none }) := by
  simp only [consumeToken]
  rw [if_pos h]

theorem consumeToken_eq_of_lt_one (b : BucketData) (now : ℚ)
    (h : ¬ 1 ≤ (refillBucket b now).tokens) :
    consumeToken b now =
      (refillBucket b now,
       { allowed := false
         remaining := 0
         resetTime := (refillBucket b now).lastRefill + (refillBucket b now).window
         retryAfter :=
           some ((⌈(1 - (refillBucket b now).tokens) /
             (refillBucket b now).refillRate⌉ : ℤ) : ℚ) }) := by
  simp only [consumeToken]
  rw [if_neg h]

/-- C1: `consumeToken` first refills; if the refilled token count is ≥ 1 it
returns the refilled bucket with exactly one token subtracted together with
`allowed = true` and `remaining = ⌊tokens − 1⌋`; otherwise it returns the
refilled bucket unchanged with `allowed = false`, `remaining = 0` and
`retryAfter = ⌈(1 − tokens) / refillRate⌉`; in both branches
`resetTime = lastRefill + window` of the refilled bucket. -/
theorem consumeToken_refills_then_decides (bucket : BucketData) (now : ℚ) :
    (1 ≤ (refillBucket bucket now).tokens →
      consumeToken bucket now =
        ({ refillBucket bucket now with
            tokens := (refillBucket bucket now).tokens - 1 },
         { allowed := true
           remaining := ⌊(refillBucket bucket now).tokens - 1⌋
           resetTime :=
             (refillBucket bucket now).lastRefill +
               (refillBucket bucket now).window
           retryAfter := none })) ∧
    (¬ 1 ≤ (refillBucket bucket now).tokens →
      consumeToken bucket now =
        (refillBucket bucket now,
         { allowed := false
           remaining := 0
           resetTime :=
             (refillBucket bucket now).lastRefill +
               (refillBucket bucket now).window
           retryAfter :=
             some ((⌈(1 - (refillBucket bucket now).tokens) /
               (refillBucket bucket now).refillRate⌉ : ℤ) : ℚ) })) := by
  exact ⟨consumeToken_eq_of_one_le bucket now, consumeToken_eq_of_lt_one bucket now⟩

/-- Witness for C1: the allowed branch at a full bucket and the denied
branch at an empty bucket, at concrete inputs. -/
theorem consumeToken_refills_then_decides_w :
    (consumeToken ⟨5, 5, 5, 0, 10, 1/2⟩ 0).2.allowed = true ∧
    (consumeToken ⟨0, 5, 5, 0, 10, 1/2⟩ 0).2.allowed = false := by
  constructor
  · rw [(consumeToken_refills_then_decides ⟨5, 5, 5, 0, 10, 1/2⟩ 0).1
      (by norm_num [refillBucket, jsMin])]
  · rw [(consumeToken_refills_then_decides ⟨0, 5, 5, 0, 10, 1/2⟩ 0).2
      (by norm_num [refillBucket, jsMin])]

/-- C2: `refillBucket` with `elapsed = now − lastRefill` sets
`tokens = burstCapacity` when `elapsed ≥ window`, regardless of the prior
token count, and `tokens = min burstCapacity (tokens + elapsed·refillRate)`
when `elapsed < window`, setting `lastRefill = now` in both cases. -/
theorem refillBucket_cases (bucket : BucketData) (now : ℚ) :
    (bucket.window ≤ now - bucket.lastRefill →
      refillBucket bucket now =
        { bucket with tokens := bucket.burstCapacity, lastRefill := now }) ∧
    (now - bucket.lastRefill < bucket.window →
      refillBucket bucket now =
        { bucket with
            tokens := jsMin bucket.burstCapacity
              (bucket.tokens + (now - bucket.lastRefill) * bucket.refillRate)
            lastRefill := now }) := by
  exact ⟨refillBucket_eq_of_window_le bucket now, refillBucket_eq_of_lt_window bucket now⟩

/-- Witness for C2: the full-reset branch after a whole window has elapsed
and the linear branch at half a window, at concrete inputs. -/
theorem refillBucket_cases_w :
    (refillBucket ⟨2, 5, 5, 0, 10, 1/2⟩ 10).tokens = 5 ∧
    (refillBucket ⟨2, 5, 5, 0, 10, 1/2⟩ 4).tokens = 4 := by
  constructor
  · rw [(refillBucket_cases ⟨2, 5, 5, 0, 10, 1/2⟩ 10).1 (by norm_num)]
  · rw [(refillBucket_cases ⟨2, 5, 5, 0, 10, 1/2⟩ 4).2 (by norm_num)]
    norm_num [jsMin]

theorem iterateConsume_createBucket_fields (C W B : ℕ) (_hC : 0 < C) (hW : 0 < W)
    (t0 : ℚ) :
    ∀ k, k ≤ C + B →
      (iterateConsume (createBucket C W B t0) t0 k).tokens = (C : ℚ) + B - k ∧
      (iterateConsume (createBucket C W B t0) t0 k).burstCapacity = (C : ℚ) + B ∧
      (iterateConsume (createBucket C W B t0) t0 k).lastRefill = t0 ∧
      (iterateConsume (createBucket C W B t0) t0 k).window = (W : ℚ) ∧
      (iterateConsume (createBucket C W B t0) t0 k).refillRate = (C : ℚ) / (W : ℚ) ∧
      (iterateConsume (createBucket C W B t0) t0 k).capacity = (C : ℚ) := by
  intro k
  induction k with
  | zero =>
      intro _
      refine ⟨?_, rfl, rfl, rfl, rfl, rfl⟩
      simp [iterateConsume, createBucket]
  | succ k ih =>
      intro hk
      obtain ⟨ht, hbc, hlr, hw, hrr, hcap⟩ := ih (Nat.le_of_succ_le hk)
      set bk := iterateConsume (createBucket C W B t0) t0 k with hbk
      have hwpos : (0 : ℚ) < bk.window := by
        rw [hw]; exact_mod_cast hW
      have hrefill := refillBucket_no_elapsed bk t0 hlr.symm hwpos
      have hreftok : (refillBucket bk t0).tokens = (C : ℚ) + B - k := by
        rw [hrefill]
        show jsMin bk.burstCapacity bk.tokens = _
        rw [hbc, ht, jsMin_eq_min, min_eq_right]
        have : (0 : ℚ) ≤ (k : ℚ) := Nat.cast_nonneg k
        linarith
      have hone : 1 ≤ (refillBucket bk t0).tokens := by
        rw [hreftok]
        have hcast : ((k + 1 : ℕ) : ℚ) ≤ ((C + B : ℕ) : ℚ) := Nat.cast_le.mpr hk
        push_cast at hcast
        linarith
      have hcons := consumeToken_eq_of_one_le bk t0 hone
      simp only [iterateConsume, ← hbk, hcons]
      refine ⟨?_, ?_, ?_, ?_, ?_, ?_⟩
      · show (refillBucket bk t0).tokens - 1 = _
        rw [hreftok]
        push_cast
        ring
      · show (refillBucket bk t0).burstCapacity = _
        rw [hrefill]; exact hbc
      · show (refillBucket bk t0).lastRefill = _
        rw [hrefill]
      · show (refillBucket bk t0).window = _
        rw [hrefill]; exact hw
      · show (refillBucket bk t0).refillRate = _
        rw [hrefill]; exact hrr
      · show (refillBucket bk t0).capacity = _
        rw [hrefill]; exact hcap

/-- C3: starting from a freshly created bucket with integer capacity `C > 0`,
window `W > 0` and burst `B ≥ 0`, each of the first `C + B` consumes at the
creation instant is allowed with `remaining` strictly decreasing through
`C + B − 1, …, 0`, and the `(C + B + 1)`-th consume is denied with
`remaining = 0` and a strictly positive `retryAfter`. -/
theorem createBucket_sequential_consumes (C W B : ℕ) (hC : 0 < C) (hW : 0 < W)
    (t0 : ℚ) :
    (∀ k, k < C + B →
      (consumeToken (iterateConsume (createBucket C W B t0) t0 k) t0).2.allowed
        = true ∧
      (consumeToken (iterateConsume (createBucket C W B t0) t0 k) t0).2.remaining
        = (C : ℤ) + B - 1 - k) ∧
    (consumeToken (iterateConsume (createBucket C W B t0) t0 (C + B)) t0).2.allowed
      = false ∧
    (consumeToken (iterateConsume (createBucket C W B t0) t0 (C + B)) t0).2.remaining
      = 0 ∧
    ∃ r : ℚ,
      (consumeToken (iterateConsume (createBucket C W B t0) t0 (C + B)) t0).2.retryAfter
        = some r ∧ 0 < r := by
  constructor
  · intro k hklt
    obtain ⟨ht, hbc, hlr, hw, hrr, hcap⟩ :=
      iterateConsume_createBucket_fields C W B hC hW t0 k (Nat.le_of_lt hklt)
    set bk := iterateConsume (createBucket C W B t0) t0 k with hbk
    have hwpos : (0 : ℚ) < bk.window := by
      rw [hw]; exact_mod_cast hW
    have hrefill := refillBucket_no_elapsed bk t0 hlr.symm hwpos
    have hreftok : (refillBucket bk t0).tokens = (C : ℚ) + B - k := by
      rw [hrefill]
      show jsMin bk.burstCapacity bk.tokens = _
      rw [hbc, ht, jsMin_eq_min, min_eq_right]
      have : (0 : ℚ) ≤ (k : ℚ) := Nat.cast_nonneg k
      linarith
    have hone : 1 ≤ (refillBucket bk t0).tokens := by
      rw [hreftok]
      have hcast : ((k + 1 : ℕ) : ℚ) ≤ ((C + B : ℕ) : ℚ) :=
        Nat.cast_le.mpr (Nat.succ_le_of_lt hklt)
      push_cast at hcast
      linarith
    rw [consumeToken_eq_of_one_le bk t0 hone]
    refine ⟨rfl, ?_⟩
    show ⌊(refillBucket bk t0).tokens - 1⌋ = _
    rw [hreftok,
      show (C : ℚ) + B - k - 1 = (((C : ℤ) + B - 1 - k : ℤ) : ℚ) by push_cast; ring,
      Int.floor_intCast]
  · obtain ⟨ht, hbc, hlr, hw, hrr, hcap⟩ :=
      iterateConsume_createBucket_fields C W B hC hW t0 (C + B) le_rfl
    set bk := iterateConsume (createBucket C W B t0) t0 (C + B) with hbk
    have hwpos : (0 : ℚ) < bk.window := by
      rw [hw]; exact_mod_cast hW
    have hrefill := refillBucket_no_elapsed bk t0 hlr.symm hwpos
    have hreftok : (refillBucket bk t0).tokens = 0 := by
      rw [hrefill]
      show jsMin bk.burstCapacity bk.tokens = _
      rw [hbc, ht, jsMin_eq_min, min_eq_right (by push_cast; linarith [Nat.cast_nonneg (α := ℚ) C, Nat.cast_nonneg (α := ℚ) B])]
      push_cast
      ring
    have hnot : ¬ 1 ≤ (refillBucket bk t0).tokens := by
      rw [hreftok]; norm_num
    rw [consumeToken_eq_of_lt_one bk t0 hnot]
    refine ⟨rfl, rfl, ?_⟩
    refine ⟨((⌈(1 - (refillBucket bk t0).tokens) /
      (refillBucket bk t0).refillRate⌉ : ℤ) : ℚ), rfl, ?_⟩
    have hrate : (refillBucket bk t0).refillRate = (C : ℚ) / W := by
      rw [hrefill]; exact hrr
    have hpos : (0 : ℚ) < (1 - (refillBucket bk t0).tokens) /
        (refillBucket bk t0).refillRate := by
      rw [hreftok, hrate]
      have hCpos : (0 : ℚ) < C := by exact_mod_cast hC
      have hWpos : (0 : ℚ) < W := by exact_mod_cast hW
      positivity
    have : (0 : ℤ) < ⌈(1 - (refillBucket bk t0).tokens) /
        (refillBucket bk t0).refillRate⌉ := by
      rw [Int.lt_ceil]
      exact_mod_cast hpos
    exact_mod_cast this

/-- Witness for C3 at `C = 2`, `W = 5`, `B = 1`: the first consume is allowed
and the fourth is denied. -/
theorem createBucket_sequential_consumes_w :
    (consumeToken (iterateConsume (createBucket ((2 : ℕ) : ℚ) ((5 : ℕ) : ℚ)
        ((1 : ℕ) : ℚ) 0) 0 0) 0).2.allowed = true ∧
    (consumeToken (iterateConsume (createBucket ((2 : ℕ) : ℚ) ((5 : ℕ) : ℚ)
        ((1 : ℕ) : ℚ) 0) 0 (2 + 1)) 0).2.allowed = false := by
  have h := createBucket_sequential_consumes 2 5 1 (by norm_num) (by norm_num) 0
  exact ⟨(h.1 0 (by norm_num)).1, h.2.1⟩

/-- Embeds the `RateLimitContext` fields the default key generator reads. -/
structure RateLimitContext where
  clientId : Option String
  resource : Option String
  deriving Repr, DecidableEq

/-- Embeds the JavaScript idiom `value || fallback` on an optional string,
where `undefined` and the empty string are falsy. -/
def orDefault (s : Option String) (d : String) : String :=
  match s with
  | none => d
  | some v => if v = "" then d else v

/-- Embeds the default key generator
`(ctx) => \x7b${ctx.clientId || "default"}:${ctx.resource || "global"}\x7d`. -/
def defaultKeyGenerator (ctx : RateLimitContext) : String :=
  orDefault ctx.clientId "default" ++ ":" ++ orDefault ctx.resource "global"

/-- Embeds `RateLimiterProps` (shared field-for-field by the sync and async
engines). -/
structure RateLimiterProps where
  requests : ℚ
  window : ℚ
  burst : ℚ
  keyGenerator : RateLimitContext → String

/-- The storage backend contents: a partial map from keys to buckets. -/
abbrev Store : Type := String → Option BucketData

/-- Embeds `storage.set(key, value)`. -/
def storeSet (s : Store) (key : String) (b : BucketData) : Store :=
  fun k => if k = key then some b else s k

/-- Embeds the engine-level result `{ ...result, key }`. -/
structure EngineResult where
  allowed : Bool
  remaining : ℤ
  resetTime : ℚ
  retryAfter : Option ℚ
  key : String
  deriving Repr, DecidableEq

/-- Embeds the spread `{ ...result, key }` used by the engines. -/
def RateLimitResult.withKey (r : RateLimitResult) (key : String) : EngineResult :=
  { allowed := r.allowed
    remaining := r.remaining
    resetTime := r.resetTime
    retryAfter := r.retryAfter
    key := key }

/-- Result of an engine call: the returned value, the storage contents
afterwards, and the list of `storage.set` calls performed. -/
structure EngineOut where
  result : EngineResult
  store : Store
  writes : List (String × BucketData)

/-- Embeds the `RateLimitStats` record the engines return. -/
structure RateLimitStats where
  totalRequests : ℚ
  allowedRequests : ℚ
  rejectedRequests : ℚ
  totalKeys : ℚ
  avgResponseTime : ℚ
  bucketsCreated : ℚ
  deriving Repr, DecidableEq

/-- Result of an engine `stats` call, with the storage contents afterwards
and the writes performed. -/
structure StatsOut where
  stats : RateLimitStats
  store : Store
  writes : List (String × BucketData)

/-- Embeds `RateLimiterSync.getBucket` of `src/rate-limiter.unit.ts`:
load from storage, or create a fresh bucket and write it. -/
def RateLimiterSync.getBucket (p : RateLimiterProps) (s : Store) (now : ℚ)
    (key : String) : BucketData × Store × List (String × BucketData) :=
  match s key with
  | some bucket => (bucket, s, [])
  | none =>
      let newBucket := createBucket p.requests p.window p.burst now
      (newBucket, storeSet s key newBucket, [(key, newBucket)])

/-- Embeds `RateLimiterSync.check` of `src/rate-limiter.unit.ts`. -/
def RateLimiterSync.check (p : RateLimiterProps) (s : Store) (now : ℚ)
    (context : RateLimitContext) : EngineOut :=
  let key := p.keyGenerator context
  let gb := RateLimiterSync.getBucket p s now key
  let info := getBucketInfo gb.1 now
  { result :=
      { allowed := decide (0 < info.tokens)
        remaining := info.tokens
        resetTime := info.nextRefill
        retryAfter := some (if info.tokens = 0 then info.nextRefill - now else 0)
        key := key }
    store := gb.2.1
    writes := gb.2.2 }

/-- Embeds `RateLimiterSync.consume` of `src/rate-limiter.unit.ts`: the
updated bucket is written back only when the consume was allowed. -/
def RateLimiterSync.consume (p : RateLimiterProps) (s : Store) (now : ℚ)
    (context : RateLimitContext) : EngineOut :=
  let key := p.keyGenerator context
  let gb := RateLimiterSync.getBucket p s now key
  let cr := consumeToken gb.1 now
  if cr.2.allowed then
    { result := cr.2.withKey key
      store := storeSet gb.2.1 key cr.1
      writes := gb.2.2 ++ [(key, cr.1)] }
  else
    { result := cr.2.withKey key
      store := gb.2.1
      writes := gb.2.2 }

/-- Embeds `RateLimiterSync.stats` of `src/rate-limiter.unit.ts`. -/
def RateLimiterSync.stats (p : RateLimiterProps) (s : Store) (now : ℚ)
    (key : Option String) : StatsOut :=
  match key with
  | some k =>
      let gb := RateLimiterSync.getBucket p s now k
      let info := getBucketInfo gb.1 now
      let initialTokens := p.requests + p.burst
      { stats :=
          { totalRequests := initialTokens - (info.tokens : ℚ)
            allowedRequests := initialTokens - (info.tokens : ℚ)
            rejectedRequests := 0
            totalKeys := 1
            avgResponseTime := 0
            bucketsCreated := 1 }
        store := gb.2.1
        writes := gb.2.2 }
  | none =>
      { stats :=
          { totalRequests := 0
            allowedRequests := 0
            rejectedRequests := 0
            totalKeys := 0
            avgResponseTime := 0
            bucketsCreated := 0 }
        store := s
        writes := [] }

/-- Embeds the async `RateLimiter.getBucket` (identical to the sync form
once the `await` sequencing is made explicit). -/
def RateLimiter.getBucket (p : RateLimiterProps) (s : Store) (now : ℚ)
    (key : String) : BucketData × Store × List (String × BucketData) :=
  match s key with
  | some bucket => (bucket, s, [])
  | none =>
      let newBucket := createBucket p.requests p.window p.burst now
      (newBucket, storeSet s key newBucket, [(key, newBucket)])

/-- Embeds the async `RateLimiter.check`. -/
def RateLimiter.check (p : RateLimiterProps) (s : Store) (now : ℚ)
    (context : RateLimitContext) : EngineOut :=
  let key := p.keyGenerator context
  let gb := RateLimiter.getBucket p s now key
  let info := getBucketInfo gb.1 now
  { result :=
      { allowed := decide (0 < info.tokens)
        remaining := info.tokens
        resetTime := info.nextRefill
        retryAfter := some (if info.tokens = 0 then info.nextRefill - now else 0)
        key := key }
    store := gb.2.1
    writes := gb.2.2 }

/-- Embeds the async `RateLimiter.consume`. -/
def RateLimiter.consume (p : RateLimiterProps) (s : Store) (now : ℚ)
    (context : RateLimitContext) : EngineOut :=
  let key := p.keyGenerator context
  let gb := RateLimiter.getBucket p s now key
  let cr := consumeToken gb.1 now
  if cr.2.allowed then
    { result := cr.2.withKey key
      store := storeSet gb.2.1 key cr.1
      writes := gb.2.2 ++ [(key, cr.1)] }
  else
    { result := cr.2.withKey key
      store := gb.2.1
      writes := gb.2.2 }

/-- Embeds the configuration record accepted by both `create` factories. -/
structure RateLimiterConfig where
  requests : Option ℚ
  window : Option ℚ
  burst : Option ℚ
  keyGenerator : Option (RateLimitContext → String)

/-- Modelled from the spec: the spec's error taxonomy names a
`ConfigurationError` raised when `requests ≤ 0` or `window ≤ 0`; no such
type or validation appears anywhere in the source, and both `create`
factories have no throw sites, so the embedded factories carry an `Except`
error channel that the source never uses. -/
inductive ConfigurationError where
  | invalidConfig
  deriving Repr, DecidableEq

/-- Embeds `RateLimiterSync.create` of `src/rate-limiter.unit.ts`: defaults
are applied with `??`; the body is straight-line with no validation. -/
def RateLimiterSync.create (config : RateLimiterConfig) :
    Except ConfigurationError RateLimiterProps :=
  Except.ok
    { requests := config.requests.getD 100
      window := config.window.getD 60000
      burst := config.burst.getD 10
      keyGenerator := config.keyGenerator.getD defaultKeyGenerator }

/-- Embeds the async `RateLimiter.create`: same defaults, same straight-line
body without validation. -/
def RateLimiter.create (config : RateLimiterConfig) :
    Except ConfigurationError RateLimiterProps :=
  Except.ok
    { requests := config.requests.getD 100
      window := config.window.getD 60000
      burst := config.burst.getD 10
      keyGenerator := config.keyGenerator.getD defaultKeyGenerator }

theorem storeSet_same (s : Store) (key : String) (b : BucketData) :
    storeSet s key b key = some b := by
  simp [storeSet]

theorem RateLimiterSync.getBucket_of_mem (p : RateLimiterProps) (s : Store)
    (now : ℚ) (key : String) (b0 : BucketData) (h : s key = some b0) :
    RateLimiterSync.getBucket p s now key = (b0, s, []) := by
  simp [RateLimiterSync.getBucket, h]

theorem RateLimiterSync.getBucket_of_absent (p : RateLimiterProps) (s : Store)
    (now : ℚ) (key : String) (h : s key = none) :
    RateLimiterSync.getBucket p s now key =
      (createBucket p.requests p.window p.burst now,
       storeSet s key (createBucket p.requests p.window p.burst now),
       [(key, createBucket p.requests p.window p.burst now)]) := by
  simp [RateLimiterSync.getBucket, h]

/-- C5: the blocking and suspending engine variants are numerically
identical: on every configuration, storage contents, current time and
context, async `RateLimiter.check`/`consume` return the same result, leave
the same storage contents and perform the same writes as
`RateLimiterSync.check`/`consume`. -/
theorem sync_async_numerically_identical (p : RateLimiterProps) (s : Store)
    (now : ℚ) (context : RateLimitContext) :
    RateLimiter.check p s now context = RateLimiterSync.check p s now context ∧
    RateLimiter.consume p s now context = RateLimiterSync.consume p s now context :=
  ⟨rfl, rfl⟩

theorem RateLimiterSync.consume_eq_of_allowed (p : RateLimiterProps) (s : Store)
    (now : ℚ) (context : RateLimitContext)
    (h : (consumeToken
        (RateLimiterSync.getBucket p s now (p.keyGenerator context)).1 now).2.allowed
      = true) :
    RateLimiterSync.consume p s now context =
      { result := (consumeToken
          (RateLimiterSync.getBucket p s now (p.keyGenerator context)).1 now).2.withKey
            (p.keyGenerator context)
        store := storeSet
          (RateLimiterSync.getBucket p s now (p.keyGenerator context)).2.1
          (p.keyGenerator context)
          (consumeToken
            (RateLimiterSync.getBucket p s now (p.keyGenerator context)).1 now).1
        writes := (RateLimiterSync.getBucket p s now (p.keyGenerator context)).2.2 ++
          [(p.keyGenerator context,
            (consumeToken
              (RateLimiterSync.getBucket p s now (p.keyGenerator context)).1 now).1)] } := by
  simp only [RateLimiterSync.consume]
  rw [if_pos h]

theorem RateLimiterSync.consume_eq_of_denied (p : RateLimiterProps) (s : Store)
    (now : ℚ) (context : RateLimitContext)
    (h : (consumeToken
        (RateLimiterSync.getBucket p s now (p.keyGenerator context)).1 now).2.allowed
      = false) :
    RateLimiterSync.consume p s now context =
      { result := (consumeToken
          (RateLimiterSync.getBucket p s now (p.keyGenerator context)).1 now).2.withKey
            (p.keyGenerator context)
        store := (RateLimiterSync.getBucket p s now (p.keyGenerator context)).2.1
        writes := (RateLimiterSync.getBucket p s now (p.keyGenerator context)).2.2 } := by
  simp only [RateLimiterSync.consume]
  rw [if_neg (by simp [h])]

/-- C6: the engine persists exactly when it admits: when `consume` returns
`allowed = true` the decremented bucket is written back under the derived
key; when it returns `allowed = false` and the key already held a bucket,
no write is performed and the storage contents are unchanged. -/
theorem consume_persists_iff_allowed (p : RateLimiterProps) (s : Store)
    (now : ℚ) (context : RateLimitContext) :
    ((RateLimiterSync.consume p s now context).result.allowed = true →
      (RateLimiterSync.consume p s now context).store (p.keyGenerator context) =
        some (consumeToken
          (RateLimiterSync.getBucket p s now (p.keyGenerator context)).1 now).1) ∧
    ((RateLimiterSync.consume p s now context).result.allowed = false →
      ∀ b0, s (p.keyGenerator context) = some b0 →
        (RateLimiterSync.consume p s now context).writes = [] ∧
        (RateLimiterSync.consume p s now context).store = s) := by
  constructor
  · intro hallow
    by_cases hc : (consumeToken
        (RateLimiterSync.getBucket p s now (p.keyGenerator context)).1 now).2.allowed = true
    · rw [RateLimiterSync.consume_eq_of_allowed p s now context hc]
      exact storeSet_same _ _ _
    · have hcf : (consumeToken
          (RateLimiterSync.getBucket p s now (p.keyGenerator context)).1 now).2.allowed
            = false := by
        cases h2 : (consumeToken
          (RateLimiterSync.getBucket p s now (p.keyGenerator context)).1 now).2.allowed
        · rfl
        · exact absurd h2 hc
      rw [RateLimiterSync.consume_eq_of_denied p s now context hcf] at hallow
      exact absurd hallow (by simp [RateLimitResult.withKey, hcf])
  · intro hdenied b0 hb0
    have hgb := RateLimiterSync.getBucket_of_mem p s now (p.keyGenerator context) b0 hb0
    by_cases hc : (consumeToken
        (RateLimiterSync.getBucket p s now (p.keyGenerator context)).1 now).2.allowed = true
    · rw [RateLimiterSync.consume_eq_of_allowed p s now context hc] at hdenied
      exact absurd hdenied (by simp [RateLimitResult.withKey, hc])
    · have hcf : (consumeToken
          (RateLimiterSync.getBucket p s now (p.keyGenerator context)).1 now).2.allowed
            = false := by
        cases h2 : (consumeToken
          (RateLimiterSync.getBucket p s now (p.keyGenerator context)).1 now).2.allowed
        · rfl
        · exact absurd h2 hc
      rw [RateLimiterSync.consume_eq_of_denied p s now context hcf, hgb]
      exact ⟨rfl, rfl⟩

/-- Witness for C6: a full bucket is debited and written back; an empty
bucket's denial performs no write, at concrete inputs. -/
theorem consume_persists_iff_allowed_w :
    (RateLimiterSync.consume ⟨5, 10, 0, fun _ => "k"⟩
        (storeSet (fun _ => none) "k" ⟨5, 5, 5, 0, 10, 1/2⟩) 0 ⟨none, none⟩).store "k" =
      some (consumeToken (RateLimiterSync.getBucket ⟨5, 10, 0, fun _ => "k"⟩
        (storeSet (fun _ => none) "k" ⟨5, 5, 5, 0, 10, 1/2⟩) 0 "k").1 0).1 ∧
    (RateLimiterSync.consume ⟨5, 10, 0, fun _ => "k"⟩
        (storeSet (fun _ => none) "k" ⟨0, 5, 5, 0, 10, 1/2⟩) 0 ⟨none, none⟩).writes = [] := by
  constructor
  · exact (consume_persists_iff_allowed ⟨5, 10, 0, fun _ => "k"⟩
      (storeSet (fun _ => none) "k" ⟨5, 5, 5, 0, 10, 1/2⟩) 0 ⟨none, none⟩).1
      (by norm_num [RateLimiterSync.consume, RateLimiterSync.getBucket, storeSet,
        consumeToken, refillBucket, jsMin, RateLimitResult.withKey])
  · exact ((consume_persists_iff_allowed ⟨5, 10, 0, fun _ => "k"⟩
      (storeSet (fun _ => none) "k" ⟨0, 5, 5, 0, 10, 1/2⟩) 0 ⟨none, none⟩).2
      (by norm_num [RateLimiterSync.consume, RateLimiterSync.getBucket, storeSet,
        consumeToken, refillBucket, jsMin, RateLimitResult.withKey])
      ⟨0, 5, 5, 0, 10, 1/2⟩ (by simp [storeSet])).1

/-- C7 counterexample: at a stored bucket whose post-refill token count is
`1/2`, the code's `check` reports `allowed = false` and
`retryAfter = nextRefill − now = 10`, while the claim's formulas
(`allowed = tokens > 0`, `retryAfter = tokens == 0 ? … : 0`, with `tokens`
the post-refill token count) demand `allowed = true` and `retryAfter = 0`:
the post-refill tokens are positive and nonzero. -/
theorem check_raw_token_formulas_cex :
    (RateLimiterSync.check ⟨5, 10, 0, fun _ => "k"⟩
        (storeSet (fun _ => none) "k" ⟨1/2, 5, 5, 0, 10, 1/2⟩) 0
        ⟨none, none⟩).result.allowed = false ∧
    0 < (refillBucket ⟨1/2, 5, 5, 0, 10, 1/2⟩ 0).tokens ∧
    (RateLimiterSync.check ⟨5, 10, 0, fun _ => "k"⟩
        (storeSet (fun _ => none) "k" ⟨1/2, 5, 5, 0, 10, 1/2⟩) 0
        ⟨none, none⟩).result.retryAfter = some 10 ∧
    ¬ (refillBucket ⟨1/2, 5, 5, 0, 10, 1/2⟩ 0).tokens = 0 := by
  refine ⟨?_, ?_, ?_, ?_⟩ <;>
    norm_num [RateLimiterSync.check, RateLimiterSync.getBucket, storeSet,
      getBucketInfo, refillBucket, jsMin]

/-- C7 amended: for every context whose key already holds a bucket, `check`
computes from the post-refill state with FLOORED tokens:
`allowed = ⌊tokens⌋ > 0`, `remaining = ⌊tokens⌋`, and
`retryAfter = (⌊tokens⌋ == 0 ? nextRefill − now : 0)`, without writing the
refill back or decrementing a token, so two immediate successive `check`
calls report identical `remaining`. -/
theorem check_floored_nonpersisting (p : RateLimiterProps) (s : Store)
    (now : ℚ) (context : RateLimitContext) (b0 : BucketData)
    (h : s (p.keyGenerator context) = some b0) :
    (RateLimiterSync.check p s now context).result.allowed
      = decide (0 < ⌊(refillBucket b0 now).tokens⌋) ∧
    (RateLimiterSync.check p s now context).result.remaining
      = ⌊(refillBucket b0 now).tokens⌋ ∧
    (RateLimiterSync.check p s now context).result.retryAfter
      = some (if ⌊(refillBucket b0 now).tokens⌋ = 0 then
          ((refillBucket b0 now).lastRefill + (refillBucket b0 now).window) - now
        else 0) ∧
    (RateLimiterSync.check p s now context).store = s ∧
    (RateLimiterSync.check p s now context).writes = [] ∧
    (RateLimiterSync.check p ((RateLimiterSync.check p s now context).store)
        now context).result.remaining
      = (RateLimiterSync.check p s now context).result.remaining := by
  have hgb := RateLimiterSync.getBucket_of_mem p s now (p.keyGenerator context) b0 h
  simp only [RateLimiterSync.check, hgb, getBucketInfo]
  exact ⟨trivial, trivial, trivial, trivial, trivial, trivial⟩

/-- Witness for C7 amended: a stored full bucket at concrete inputs. -/
theorem check_floored_nonpersisting_w :
    (RateLimiterSync.check ⟨5, 10, 0, fun _ => "k"⟩
        (storeSet (fun _ => none) "k" ⟨5, 5, 5, 0, 10, 1/2⟩) 0
        ⟨none, none⟩).result.remaining
      = ⌊(refillBucket ⟨5, 5, 5, 0, 10, 1/2⟩ 0).tokens⌋ ∧
    (RateLimiterSync.check ⟨5, 10, 0, fun _ => "k"⟩
        (storeSet (fun _ => none) "k" ⟨5, 5, 5, 0, 10, 1/2⟩) 0
        ⟨none, none⟩).writes = [] := by
  have h := check_floored_nonpersisting ⟨5, 10, 0, fun _ => "k"⟩
    (storeSet (fun _ => none) "k" ⟨5, 5, 5, 0, 10, 1/2⟩) 0 ⟨none, none⟩
    ⟨5, 5, 5, 0, 10, 1/2⟩ (by simp [storeSet])
  exact ⟨h.2.1, h.2.2.2.2.1⟩

/-- C8 counterexample: at the invalid configuration `requests = 0`,
`window = 0` (both ≤ 0), both `create` factories return a limiter instance
instead of raising: there is no validation in the source. -/
theorem create_accepts_invalid_config_cex :
    RateLimiterSync.create
        { requests := some 0, window := some 0, burst := none, keyGenerator := none }
      = Except.ok
        { requests := 0, window := 0, burst := 10, keyGenerator := defaultKeyGenerator } ∧
    RateLimiter.create
        { requests := some 0, window := some 0, burst := none, keyGenerator := none }
      = Except.ok
        { requests := 0, window := 0, burst := 10, keyGenerator := defaultKeyGenerator } :=
  ⟨rfl, rfl⟩

/-- C8 amended: construction performs no validation at all: for every
configuration, including any with `requests ≤ 0` or `window ≤ 0`, both
`create` factories return a limiter instance and never raise a
`ConfigurationError`. -/
theorem create_never_raises (config : RateLimiterConfig) :
    (∃ p, RateLimiterSync.create config = Except.ok p) ∧
    (∃ p, RateLimiter.create config = Except.ok p) :=
  ⟨⟨_, rfl⟩, ⟨_, rfl⟩⟩

theorem getBucketInfo_createBucket_tokens (cap w b now : ℚ) :
    (getBucketInfo (createBucket cap w b now) now).tokens = ⌊cap + b⌋ := by
  show ⌊(refillBucket (createBucket cap w b now) now).tokens⌋ = _
  by_cases hw : (createBucket cap w b now).window ≤
      now - (createBucket cap w b now).lastRefill
  · rw [refillBucket_eq_of_window_le _ _ hw]
    rfl
  · rw [refillBucket_eq_of_lt_window _ _ (not_le.mp hw)]
    show ⌊jsMin (cap + b) (cap + b + (now - now) * (cap / w))⌋ = _
    rw [sub_self, zero_mul, add_zero, jsMin, if_pos le_rfl]

/-- C10: `stats(key)` on an absent key creates a fresh bucket and writes it
to storage under that key as a side effect, then reports
`totalRequests = 0`, `allowedRequests = 0`, `rejectedRequests = 0`,
`totalKeys = 1`, `bucketsCreated = 1`, since the fresh bucket holds
`requests + burst` tokens and `totalRequests = (requests + burst) − ⌊tokens⌋`. -/
theorem stats_creates_bucket_and_zero_counters (p : RateLimiterProps)
    (s : Store) (now : ℚ) (k : String) (R B : ℕ)
    (hR : p.requests = R) (hB : p.burst = B) (habs : s k = none) :
    (RateLimiterSync.stats p s now (some k)).stats =
      { totalRequests := 0, allowedRequests := 0, rejectedRequests := 0,
        totalKeys := 1, avgResponseTime := 0, bucketsCreated := 1 } ∧
    (RateLimiterSync.stats p s now (some k)).store k =
      some (createBucket p.requests p.window p.burst now) ∧
    (RateLimiterSync.stats p s now (some k)).writes =
      [(k, createBucket p.requests p.window p.burst now)] := by
  have hgb := RateLimiterSync.getBucket_of_absent p s now k habs
  have htot : p.requests + p.burst -
      ((getBucketInfo (createBucket p.requests p.window p.burst now) now).tokens : ℚ)
        = 0 := by
    rw [getBucketInfo_createBucket_tokens, hR, hB,
      show (R : ℚ) + (B : ℚ) = ((R + B : ℕ) : ℚ) by push_cast; ring,
      Int.floor_natCast]
    push_cast
    ring
  simp only [RateLimiterSync.stats, hgb]
  refine ⟨?_, ?_, trivial⟩
  · rw [RateLimitStats.mk.injEq]
    exact ⟨htot, htot, rfl, rfl, rfl, rfl⟩
  · exact storeSet_same _ _ _

/-- Witness for C10: `stats("k")` on an empty store at concrete inputs. -/
theorem stats_creates_bucket_and_zero_counters_w :
    (RateLimiterSync.stats ⟨5, 10, 2, fun _ => "k"⟩ (fun _ => none) 0
        (some "k")).stats =
      { totalRequests := 0, allowedRequests := 0, rejectedRequests := 0,
        totalKeys := 1, avgResponseTime := 0, bucketsCreated := 1 } ∧
    (RateLimiterSync.stats ⟨5, 10, 2, fun _ => "k"⟩ (fun _ => none) 0
        (some "k")).store "k" = some (createBucket 5 10 2 0) := by
  have h := stats_creates_bucket_and_zero_counters ⟨5, 10, 2, fun _ => "k"⟩
    (fun _ => none) 0 "k" 5 2 (by norm_num) (by norm_num) rfl
  exact ⟨h.1, h.2.1⟩

/-- Buckets reachable from `createBucket C W B` through `refillBucket` and
`consumeToken` steps, each taken at a time at or after the bucket's
`lastRefill` (elapsed time is nonnegative). -/
inductive ReachableBucket (C W B : ℚ) : BucketData → Prop where
  | create (now : ℚ) : ReachableBucket C W B (createBucket C W B now)
  | refill (b : BucketData) (now : ℚ) : ReachableBucket C W B b →
      b.lastRefill ≤ now → ReachableBucket C W B (refillBucket b now)
  | consume (b : BucketData) (now : ℚ) : ReachableBucket C W B b →
      b.lastRefill ≤ now → ReachableBucket C W B (consumeToken b now).1

/-- The inductive bucket invariant for creation parameters `C`, `W`, `B`. -/
def BucketInv (C W B : ℚ) (b : BucketData) : Prop :=
  b.capacity = C ∧ b.window = W ∧ b.burstCapacity = C + B ∧
  b.refillRate = C / W ∧ 0 ≤ b.tokens ∧ b.tokens ≤ b.burstCapacity

theorem BucketInv_create (C W B : ℚ) (hC : 0 ≤ C) (hB : 0 ≤ B) (now : ℚ) :
    BucketInv C W B (createBucket C W B now) :=
  ⟨rfl, rfl, rfl, rfl, add_nonneg hC hB, le_refl _⟩

theorem BucketInv_refill (C W B : ℚ) (hC : 0 < C) (hW : 0 < W)
    (b : BucketData) (now : ℚ) (hb : BucketInv C W B b)
    (hnow : b.lastRefill ≤ now) : BucketInv C W B (refillBucket b now) := by
  obtain ⟨hcap, hw, hbc, hrr, ht0, ht1⟩ := hb
  by_cases hcase : b.window ≤ now - b.lastRefill
  · rw [refillBucket_eq_of_window_le b now hcase]
    exact ⟨hcap, hw, hbc, hrr, le_trans ht0 ht1, le_refl _⟩
  · rw [refillBucket_eq_of_lt_window b now (not_le.mp hcase)]
    refine ⟨hcap, hw, hbc, hrr, ?_, ?_⟩
    · show (0 : ℚ) ≤ jsMin b.burstCapacity (b.tokens + (now - b.lastRefill) * b.refillRate)
      rw [jsMin_eq_min, le_min_iff]
      refine ⟨le_trans ht0 ht1, ?_⟩
      have hrate : 0 ≤ b.refillRate := by
        rw [hrr, hcap] at *
        positivity
      exact add_nonneg ht0 (mul_nonneg (by linarith) hrate)
    · show jsMin b.burstCapacity (b.tokens + (now - b.lastRefill) * b.refillRate) ≤ b.burstCapacity
      rw [jsMin_eq_min]
      exact min_le_left _ _

theorem BucketInv_consume (C W B : ℚ) (hC : 0 < C) (hW : 0 < W)
    (b : BucketData) (now : ℚ) (hb : BucketInv C W B b)
    (hnow : b.lastRefill ≤ now) : BucketInv C W B (consumeToken b now).1 := by
  have hr := BucketInv_refill C W B hC hW b now hb hnow
  obtain ⟨hcap, hw, hbc, hrr, ht0, ht1⟩ := hr
  by_cases hone : 1 ≤ (refillBucket b now).tokens
  · rw [consumeToken_eq_of_one_le b now hone]
    refine ⟨hcap, hw, hbc, hrr, ?_, ?_⟩
    · show (0 : ℚ) ≤ (refillBucket b now).tokens - 1
      linarith
    · show (refillBucket b now).tokens - 1 ≤ (refillBucket b now).burstCapacity
      linarith
  · rw [consumeToken_eq_of_lt_one b now hone]
    exact ⟨hcap, hw, hbc, hrr, ht0, ht1⟩

/-- C4: for creation parameters capacity `C > 0`, window `W > 0`, burst
`B ≥ 0`, every bucket reachable from `createBucket` through `refillBucket`
and `consumeToken` steps at nonnegative elapsed times satisfies
`0 ≤ tokens ≤ burstCapacity`, `refillRate = capacity / window` and
`burstCapacity = capacity + burst`. -/
theorem bucket_invariant_reachable (C W B : ℚ) (hC : 0 < C) (hW : 0 < W)
    (hB : 0 ≤ B) (b : BucketData) (hb : ReachableBucket C W B b) :
    0 ≤ b.tokens ∧ b.tokens ≤ b.burstCapacity ∧
    b.refillRate = b.capacity / b.window ∧
    b.burstCapacity = b.capacity + B := by
  have hinv : BucketInv C W B b := by
    induction hb with
    | create now => exact BucketInv_create C W B (le_of_lt hC) hB now
    | refill b now hb hnow ih => exact BucketInv_refill C W B hC hW b now ih hnow
    | consume b now hb hnow ih => exact BucketInv_consume C W B hC hW b now ih hnow
  obtain ⟨hcap, hw, hbc, hrr, ht0, ht1⟩ := hinv
  refine ⟨ht0, ht1, ?_, ?_⟩
  · rw [hrr, hcap, hw]
  · rw [hbc, hcap]

/-- Witness for C4: the invariant at the freshly created bucket with
`C = 2`, `W = 5`, `B = 1`. -/
theorem bucket_invariant_reachable_w :
    0 ≤ (createBucket 2 5 1 0).tokens ∧
    (createBucket 2 5 1 0).tokens ≤ (createBucket 2 5 1 0).burstCapacity ∧
    (createBucket 2 5 1 0).refillRate =
      (createBucket 2 5 1 0).capacity / (createBucket 2 5 1 0).window ∧
    (createBucket 2 5 1 0).burstCapacity = (createBucket 2 5 1 0).capacity + 1 :=
  bucket_invariant_reachable 2 5 1 (by norm_num) (by norm_num) (by norm_num) _
    (ReachableBucket.create 0)

/-- Outcome of one embedded `limitWithRetry` run: the operation's value, a
rate-limit error carrying the denial result, or the unreachable trailing
`throw new Error('Unexpected rate limit state')`. -/
inductive LWROutcome (T : Type) where
  | success (value : T)
  | rateLimited (result : RateLimitResult)
  | unexpected
  deriving Repr, DecidableEq

/-- Trace of one `limitWithRetry` run: the outcome, the number of
`checkLimit` (consume) attempts made, the number of times the caller's
operation ran, and the sleeps performed in order. -/
structure LWROut (T : Type) where
  outcome : LWROutcome T
  nCalls : ℕ
  opRuns : ℕ
  sleeps : List ℚ
  deriving Repr

/-- Embeds `if (result.retryAfter) await this.sleep(result.retryAfter)`:
under JavaScript truthiness a sleep happens only when `retryAfter` is
present and nonzero. -/
def sleepOf (retryAfter : Option ℚ) : List ℚ :=
  match retryAfter with
  | none => []
  | some r => if r = 0 then [] else [r]

/-- Embeds the `while (attempts <= maxRetries)` loop of
`AsyncRateLimiter.limitWithRetry` in `src/rate-limiter-async.unit.ts`.
The stateful `checkLimit` is abstracted by the stream `results`: its `i`-th
entry is what the `i`-th `checkLimit` call returns (the loop variable
`attempts` counts completed denials, so it indexes the next call); the
caller's operation is abstracted by the value `op` it would return. -/
def lwrGo {T : Type} (results : ℕ → RateLimitResult) (op : T)
    (maxRetries attempts : ℕ) : LWROut T :=
  if _h1 : attempts ≤ maxRetries then
    if (results attempts).allowed then
      { outcome := .success op, nCalls := 1, opRuns := 1, sleeps := [] }
    else
      if _h3 : attempts + 1 > maxRetries then
        { outcome := .rateLimited (results attempts), nCalls := 1, opRuns := 0,
          sleeps := [] }
      else
        { outcome := (lwrGo results op maxRetries (attempts + 1)).outcome
          nCalls := (lwrGo results op maxRetries (attempts + 1)).nCalls + 1
          opRuns := (lwrGo results op maxRetries (attempts + 1)).opRuns
          sleeps := sleepOf (results attempts).retryAfter ++
            (lwrGo results op maxRetries (attempts + 1)).sleeps }
  else
    { outcome := .unexpected, nCalls := 0, opRuns := 0, sleeps := [] }
  termination_by maxRetries + 1 - attempts
  decreasing_by all_goals omega

/-- Embeds `limitWithRetry(operation, context, maxRetries)`: the loop starts
with `attempts = 0`. -/
def limitWithRetry {T : Type} (results : ℕ → RateLimitResult) (op : T)
    (maxRetries : ℕ) : LWROut T :=
  lwrGo results op maxRetries 0

theorem lwrGo_nCalls_le {T : Type} (results : ℕ → RateLimitResult) (op : T)
    (maxRetries : ℕ) :
    ∀ fuel attempts, maxRetries + 1 - attempts ≤ fuel →
      (lwrGo results op maxRetries attempts).nCalls ≤ maxRetries + 1 - attempts := by
  intro fuel
  induction fuel with
  | zero =>
      intro a ha
      rw [lwrGo, dif_neg (by omega : ¬ a ≤ maxRetries)]
      exact Nat.zero_le _
  | succ fuel ih =>
      intro a ha
      by_cases h1 : a ≤ maxRetries
      · rw [lwrGo, dif_pos h1]
        by_cases h2 : (results a).allowed = true
        · rw [if_pos h2]
          show 1 ≤ maxRetries + 1 - a
          omega
        · rw [if_neg h2]
          by_cases h3 : a + 1 > maxRetries
          · rw [dif_pos h3]
            show 1 ≤ maxRetries + 1 - a
            omega
          · rw [dif_neg h3]
            have hrec := ih (a + 1) (by omega)
            show (lwrGo results op maxRetries (a + 1)).nCalls + 1 ≤ maxRetries + 1 - a
            omega
      · rw [lwrGo, dif_neg h1]
        exact Nat.zero_le _

theorem lwrGo_first_allowed {T : Type} (results : ℕ → RateLimitResult) (op : T)
    (maxRetries k : ℕ) (hk : k ≤ maxRetries) (hallow : (results k).allowed = true) :
    ∀ fuel attempts, k - attempts ≤ fuel → attempts ≤ k →
      (∀ j, attempts ≤ j → j < k → (results j).allowed = false) →
      lwrGo results op maxRetries attempts =
        { outcome := .success op
          nCalls := k + 1 - attempts
          opRuns := 1
          sleeps := (List.range' attempts (k - attempts)).flatMap
            (fun j => sleepOf (results j).retryAfter) } := by
  intro fuel
  induction fuel with
  | zero =>
      intro a ha hak _hden
      have hEq : a = k := by omega
      subst hEq
      rw [lwrGo, dif_pos hk, if_pos hallow, LWROut.mk.injEq]
      refine ⟨rfl, by omega, rfl, by simp [Nat.sub_self]⟩
  | succ fuel ih =>
      intro a ha hak hden
      by_cases hEq : a = k
      · subst hEq
        rw [lwrGo, dif_pos hk, if_pos hallow, LWROut.mk.injEq]
        refine ⟨rfl, by omega, rfl, by simp [Nat.sub_self]⟩
      · have haltk : a < k := by omega
        rw [lwrGo, dif_pos (by omega : a ≤ maxRetries),
          if_neg (by simp [hden a le_rfl haltk]),
          dif_neg (by omega : ¬ a + 1 > maxRetries)]
        have hrec := ih (a + 1) (by omega) (by omega)
          (fun j hj1 hj2 => hden j (by omega) hj2)
        rw [hrec, LWROut.mk.injEq]
        refine ⟨rfl, ?_, rfl, ?_⟩
        · show k + 1 - (a + 1) + 1 = k + 1 - a
          omega
        · show sleepOf (results a).retryAfter ++
            (List.range' (a + 1) (k - (a + 1))).flatMap
              (fun j => sleepOf (results j).retryAfter) = _
          rw [show k - a = (k - (a + 1)) + 1 by omega, List.range'_succ,
            List.flatMap_cons]

theorem lwrGo_all_denied {T : Type} (results : ℕ → RateLimitResult) (op : T)
    (maxRetries : ℕ) (hden : ∀ j, j ≤ maxRetries → (results j).allowed = false) :
    ∀ fuel attempts, maxRetries - attempts ≤ fuel → attempts ≤ maxRetries →
      lwrGo results op maxRetries attempts =
        { outcome := .rateLimited (results maxRetries)
          nCalls := maxRetries + 1 - attempts
          opRuns := 0
          sleeps := (List.range' attempts (maxRetries - attempts)).flatMap
            (fun j => sleepOf (results j).retryAfter) } := by
  intro fuel
  induction fuel with
  | zero =>
      intro a ha hak
      have hEq : a = maxRetries := by omega
      subst hEq
      rw [lwrGo, dif_pos le_rfl, if_neg (by simp [hden a le_rfl]),
        dif_pos (by omega), LWROut.mk.injEq]
      refine ⟨rfl, by omega, rfl, by simp [Nat.sub_self]⟩
  | succ fuel ih =>
      intro a ha hak
      by_cases hEq : a = maxRetries
      · subst hEq
        rw [lwrGo, dif_pos le_rfl, if_neg (by simp [hden a le_rfl]),
          dif_pos (by omega), LWROut.mk.injEq]
        refine ⟨rfl, by omega, rfl, by simp [Nat.sub_self]⟩
      · have haltm : a < maxRetries := by omega
        rw [lwrGo, dif_pos (by omega : a ≤ maxRetries),
          if_neg (by simp [hden a (by omega)]),
          dif_neg (by omega : ¬ a + 1 > maxRetries)]
        have hrec := ih (a + 1) (by omega) (by omega)
        rw [hrec, LWROut.mk.injEq]
        refine ⟨rfl, ?_, rfl, ?_⟩
        · show maxRetries + 1 - (a + 1) + 1 = maxRetries + 1 - a
          omega
        · show sleepOf (results a).retryAfter ++
            (List.range' (a + 1) (maxRetries - (a + 1))).flatMap
              (fun j => sleepOf (results j).retryAfter) = _
          rw [show maxRetries - a = (maxRetries - (a + 1)) + 1 by omega,
            List.range'_succ, List.flatMap_cons]

/-- C9: `limitWithRetry` makes at most `maxRetries + 1` consume attempts;
when the attempt at index `k` is the first allowed one it runs the
operation exactly once and succeeds with its result after `k + 1` attempts;
when every attempt is denied it raises a rate-limit error carrying the last
denial result after exactly `maxRetries + 1` attempts, never running the
operation; between consecutive attempts it sleeps the denial's `retryAfter`
(under JS truthiness, nothing when it is absent or `0`). -/
theorem limitWithRetry_spec {T : Type} (results : ℕ → RateLimitResult)
    (op : T) (maxRetries : ℕ) :
    (limitWithRetry results op maxRetries).nCalls ≤ maxRetries + 1 ∧
    (∀ k, k ≤ maxRetries → (∀ j, j < k → (results j).allowed = false) →
      (results k).allowed = true →
      limitWithRetry results op maxRetries =
        { outcome := .success op, nCalls := k + 1, opRuns := 1,
          sleeps := (List.range k).flatMap
            (fun j => sleepOf (results j).retryAfter) }) ∧
    ((∀ j, j ≤ maxRetries → (results j).allowed = false) →
      limitWithRetry results op maxRetries =
        { outcome := .rateLimited (results maxRetries), nCalls := maxRetries + 1,
          opRuns := 0,
          sleeps := (List.range maxRetries).flatMap
            (fun j => sleepOf (results j).retryAfter) }) := by
  refine ⟨?_, ?_, ?_⟩
  · have h := lwrGo_nCalls_le results op maxRetries (maxRetries + 1) 0 (by omega)
    simp only [limitWithRetry]
    omega
  · intro k hk hden hallow
    have h := lwrGo_first_allowed results op maxRetries k hk hallow k 0 (by omega)
      (Nat.zero_le k) (fun j _ hj2 => hden j hj2)
    simp only [limitWithRetry]
    rw [h, LWROut.mk.injEq]
    refine ⟨rfl, by omega, rfl, ?_⟩
    rw [List.range_eq_range', Nat.sub_zero]
  · intro hden
    have h := lwrGo_all_denied results op maxRetries hden maxRetries 0 (by omega)
      (Nat.zero_le _)
    simp only [limitWithRetry]
    rw [h, LWROut.mk.injEq]
    refine ⟨rfl, by omega, rfl, ?_⟩
    rw [List.range_eq_range', Nat.sub_zero]

/-- Witness for C9: against a permanently exhausted bucket answering every
consume with a denial carrying `retryAfter = 50`, `maxRetries = 2` makes
exactly 3 attempts, sleeps 50 twice, never runs the operation, and raises
carrying the denial result. -/
theorem limitWithRetry_spec_w :
    limitWithRetry (fun _ => (⟨false, 0, 0, some 50⟩ : RateLimitResult))
        (0 : ℕ) 2 =
      { outcome := .rateLimited (⟨false, 0, 0, some 50⟩ : RateLimitResult),
        nCalls := 3, opRuns := 0, sleeps := [50, 50] } := by
  have h := (limitWithRetry_spec
      (fun _ => (⟨false, 0, 0, some 50⟩ : RateLimitResult))
      (0 : ℕ) 2).2.2 (fun j _ => rfl)
  rw [h]
  norm_num [sleepOf, List.range_succ]
